import Mathlib

/-!
Verification of the packaging-quantity calculator and serial-number engine of
the Python-data-to-pdf repository, as a shallow embedding in Lean.

Conventions of the embedding:
* Python integers are unbounded, so they are modelled by `ℕ` (all quantities in
  scope are nonnegative; counts and 1-based indices are at least 1 at every call
  site, which the theorems record as hypotheses).
* `math.ceil(a / b)` on positive ints is exact ceiling division.  CPython
  computes it through a binary float, so it agrees with the exact ceiling for
  all operands below 2^53, which covers every quantity this program handles; we
  embed the exact ceiling.  Python raises `ZeroDivisionError` when a divisor is
  zero; where a claim's input can reach a zero divisor the embedding returns
  `Except.error`, otherwise the divisor is positive at every call site and the
  embedding is total with that hypothesis carried by the theorems.
* Python strings are `String`; regular-expression searches are embedded as
  explicit leftmost-match scanners over the character list, with Python's lazy
  `(.+?)` prefix read as the minimal prefix at the leftmost matching start and
  `.` not matching a newline character.
-/

/-- Embedding of `math.ceil(total / per)` for natural operands, as computed by
`base_data_processor.py` and the templates: `(a + b - 1) / b` in natural
division.  Faithful to the Python expression for every `b > 0` (see
`pyCeilDiv_eq_ceilSpec`); Python raises `ZeroDivisionError` at `b = 0`, which
no in-scope call site reaches. -/
def pyCeilDiv (a b : ℕ) : ℕ := (a + b - 1) / b

/-- The mathematical ceiling `⌈a / b⌉` over the rationals, written exactly as
the specification's `ceil(total_pieces / pieces_per_box)` reads.  Used on the
specification side of the claims and proved to agree with the program's
computation. -/
def ceilSpec (a b : ℕ) : ℕ := (⌈(a : ℚ) / (b : ℚ)⌉).toNat

theorem pyCeilDiv_le_iff (a b m : ℕ) (hb : 0 < b) :
    pyCeilDiv a b ≤ m ↔ a ≤ b * m := by
  unfold pyCeilDiv
  rw [Nat.div_le_iff_le_mul_add_pred hb]
  omega

theorem le_mul_pyCeilDiv (a b : ℕ) (hb : 0 < b) : a ≤ b * pyCeilDiv a b :=
  (pyCeilDiv_le_iff a b _ hb).mp le_rfl

theorem mul_pyCeilDiv_lt (a b : ℕ) (hb : 0 < b) : b * pyCeilDiv a b < a + b := by
  have h := Nat.div_mul_le_self (a + b - 1) b
  unfold pyCeilDiv
  rw [mul_comm]
  omega

theorem pyCeilDiv_pos (a b : ℕ) (ha : 0 < a) (hb : 0 < b) : 0 < pyCeilDiv a b := by
  by_contra h
  have := (pyCeilDiv_le_iff a b 0 hb).mp (by omega)
  omega

theorem mul_pred_pyCeilDiv_lt (a b : ℕ) (ha : 0 < a) (hb : 0 < b) :
    b * (pyCeilDiv a b - 1) < a := by
  by_contra h
  have h1 := (pyCeilDiv_le_iff a b (pyCeilDiv a b - 1) hb).mpr (by omega)
  have h2 := pyCeilDiv_pos a b ha hb
  omega

/-- Cascading ceilings collapse: `ceil(ceil(a/b)/c) = ceil(a/(b*c))`. -/
theorem pyCeilDiv_pyCeilDiv (a b c : ℕ) (hb : 0 < b) (hc : 0 < c) :
    pyCeilDiv (pyCeilDiv a b) c = pyCeilDiv a (b * c) := by
  have hbc : 0 < b * c := Nat.mul_pos hb hc
  have key : ∀ m : ℕ, pyCeilDiv (pyCeilDiv a b) c ≤ m ↔ pyCeilDiv a (b * c) ≤ m := by
    intro m
    rw [pyCeilDiv_le_iff _ _ _ hc, pyCeilDiv_le_iff _ _ _ hb,
      pyCeilDiv_le_iff _ _ _ hbc, mul_assoc]
  exact Nat.le_antisymm ((key _).mpr le_rfl) ((key _).mp le_rfl)

/-- The program's `(a + b - 1) / b` equals the true rational ceiling of `a / b`
whenever `b > 0`: the embedding of `math.ceil` is honest. -/
theorem pyCeilDiv_eq_ceilSpec (a b : ℕ) (hb : 0 < b) :
    pyCeilDiv a b = ceilSpec a b := by
  have hb' : (0 : ℚ) < (b : ℚ) := by exact_mod_cast hb
  have h1 : a ≤ b * pyCeilDiv a b := le_mul_pyCeilDiv a b hb
  have h2 : b * pyCeilDiv a b < a + b := mul_pyCeilDiv_lt a b hb
  have hceil : ⌈(a : ℚ) / (b : ℚ)⌉ = (pyCeilDiv a b : ℤ) := by
    rw [Int.ceil_eq_iff]
    constructor
    · have hlt : ((pyCeilDiv a b : ℚ)) < ((a : ℚ) + b) / b := by
        rw [lt_div_iff₀ hb']
        calc ((pyCeilDiv a b : ℚ)) * b = ((b * pyCeilDiv a b : ℕ) : ℚ) := by
              push_cast; ring
          _ < (a : ℚ) + b := by exact_mod_cast h2
      have : ((a : ℚ) + b) / b = (a : ℚ) / b + 1 := by
        rw [add_div, div_self (ne_of_gt hb')]
      push_cast
      linarith [hlt, this ▸ hlt]
    · rw [div_le_iff₀ hb']
      calc (a : ℚ) ≤ ((b * pyCeilDiv a b : ℕ) : ℚ) := by exact_mod_cast h1
        _ = ((pyCeilDiv a b : ℤ) : ℚ) * b := by push_cast; ring
  unfold ceilSpec
  rw [hceil]
  simp

namespace BaseDataProcessor

/-- Result dictionary of `BaseDataProcessor.calculate_multi_level_quantities`
(`src/utils/base_data_processor.py`, lines 253-294).  The dictionary echoes the
input ratios back under mode-dependent keys; those pure copies of the arguments
are omitted here, keeping the four computed quantities.  `total_small_boxes` is
present exactly in three-level mode, mirroring the key's presence in the
returned dict. -/
structure MultiLevelQuantities where
  total_pieces : ℕ
  total_boxes : ℕ
  total_small_boxes : Option ℕ
  total_large_boxes : ℕ
deriving DecidableEq, Repr

/-- Embedding of `BaseDataProcessor.calculate_multi_level_quantities`
(`src/utils/base_data_processor.py`, lines 253-294).  `small_boxes_per_large_box
= none` is Python's `None` default selecting two-level mode. -/
def calculate_multi_level_quantities (total_pieces pieces_per_box
    boxes_per_small_box : ℕ) (small_boxes_per_large_box : Option ℕ) :
    MultiLevelQuantities :=
  let total_boxes := pyCeilDiv total_pieces pieces_per_box
  match small_boxes_per_large_box with
  | none =>
      { total_pieces := total_pieces
        total_boxes := total_boxes
        total_small_boxes := none
        total_large_boxes := pyCeilDiv total_boxes boxes_per_small_box }
  | some spl =>
      let total_small_boxes := pyCeilDiv total_boxes boxes_per_small_box
      { total_pieces := total_pieces
        total_boxes := total_boxes
        total_small_boxes := some total_small_boxes
        total_large_boxes := pyCeilDiv total_small_boxes spl }

end BaseDataProcessor

/-- C1: for positive `total_pieces`, `pieces_per_box`, `boxes_per_small_box`
and (when given) `small_boxes_per_large_box`, `calculate_multi_level_quantities`
returns `total_boxes = ceil(total_pieces / pieces_per_box)`; in three-level
mode `total_small_boxes = ceil(total_boxes / boxes_per_small_box)` and
`total_large_boxes = ceil(total_small_boxes / small_boxes_per_large_box)`; in
two-level mode (`small_boxes_per_large_box` omitted) it returns
`total_large_boxes = ceil(total_boxes / boxes_per_small_box)`.  The ceilings on
the right are the mathematical `ceilSpec`. -/
theorem C1_cascading_ceiling_quantities
    (total_pieces pieces_per_box boxes_per_small_box small_boxes_per_large_box : ℕ)
    (htp : 0 < total_pieces) (hppb : 0 < pieces_per_box)
    (hbpsb : 0 < boxes_per_small_box) (hspl : 0 < small_boxes_per_large_box) :
    (BaseDataProcessor.calculate_multi_level_quantities total_pieces
        pieces_per_box boxes_per_small_box (some small_boxes_per_large_box)).total_boxes
      = ceilSpec total_pieces pieces_per_box
    ∧ (BaseDataProcessor.calculate_multi_level_quantities total_pieces
        pieces_per_box boxes_per_small_box (some small_boxes_per_large_box)).total_small_boxes
      = some (ceilSpec (ceilSpec total_pieces pieces_per_box) boxes_per_small_box)
    ∧ (BaseDataProcessor.calculate_multi_level_quantities total_pieces
        pieces_per_box boxes_per_small_box (some small_boxes_per_large_box)).total_large_boxes
      = ceilSpec (ceilSpec (ceilSpec total_pieces pieces_per_box) boxes_per_small_box)
          small_boxes_per_large_box
    ∧ (BaseDataProcessor.calculate_multi_level_quantities total_pieces
        pieces_per_box boxes_per_small_box none).total_boxes
      = ceilSpec total_pieces pieces_per_box
    ∧ (BaseDataProcessor.calculate_multi_level_quantities total_pieces
        pieces_per_box boxes_per_small_box none).total_small_boxes = none
    ∧ (BaseDataProcessor.calculate_multi_level_quantities total_pieces
        pieces_per_box boxes_per_small_box none).total_large_boxes
      = ceilSpec (ceilSpec total_pieces pieces_per_box) boxes_per_small_box := by
  have e1 : pyCeilDiv total_pieces pieces_per_box
      = ceilSpec total_pieces pieces_per_box := pyCeilDiv_eq_ceilSpec _ _ hppb
  have e2 : pyCeilDiv (pyCeilDiv total_pieces pieces_per_box) boxes_per_small_box
      = ceilSpec (ceilSpec total_pieces pieces_per_box) boxes_per_small_box := by
    rw [pyCeilDiv_eq_ceilSpec _ _ hbpsb, e1]
  have e3 : pyCeilDiv (pyCeilDiv (pyCeilDiv total_pieces pieces_per_box)
        boxes_per_small_box) small_boxes_per_large_box
      = ceilSpec (ceilSpec (ceilSpec total_pieces pieces_per_box)
          boxes_per_small_box) small_boxes_per_large_box := by
    rw [pyCeilDiv_eq_ceilSpec _ _ hspl, e2]
  exact ⟨e1, by simp [BaseDataProcessor.calculate_multi_level_quantities, e2],
    by simp [BaseDataProcessor.calculate_multi_level_quantities, e3],
    e1, rfl,
    by simp [BaseDataProcessor.calculate_multi_level_quantities, e2]⟩

/-- Witness for C1 at the spec's scenario A/B input: 1057 pieces, 50 per box,
5 boxes per small box, 10 small boxes per large box. -/
theorem C1_cascading_ceiling_quantities_witness :
    (0 < 1057 ∧ 0 < 50 ∧ 0 < 5 ∧ 0 < 10)
    ∧ (BaseDataProcessor.calculate_multi_level_quantities 1057 50 5
        (some 10)).total_boxes = ceilSpec 1057 50 :=
  ⟨by decide,
    (C1_cascading_ceiling_quantities 1057 50 5 10 (by decide) (by decide)
      (by decide) (by decide)).1⟩

/-! ## Serial string parsing

Embeddings of the regular-expression searches of
`src/utils/base_data_processor.py`.  Each Python `re.search` is modelled as a
leftmost-match scan over the character list; `\d` is the ASCII digit class and
`[A-Z]` the ASCII uppercase class, which is what the parsed serial strings
contain.  A lazy `(.+?)` group is the minimal nonempty prefix at the leftmost
start position that lets the rest of the pattern match, and `.` does not match
a newline. -/

/-- Maximal run of ASCII digits at the head of the list (a greedy `\d+`). -/
def digitRun (l : List Char) : List Char := l.takeWhile Char.isDigit

/-- Value of a digit run, as Python's `int()` of the matched group. -/
def digitsToNat (l : List Char) : ℕ :=
  l.foldl (fun acc c => 10 * acc + (c.toNat - 48)) 0

/-- Match the tail `(\d+)-(\d+)` of the standard serial pattern at the head of
`l`, returning the two digit groups. -/
def dashDigitsMatch (l : List Char) : Option (List Char × List Char) :=
  let r1 := digitRun l
  if r1.isEmpty then none
  else
    match l.drop r1.length with
    | '-' :: rest2 =>
        let r2 := digitRun rest2
        if r2.isEmpty then none else some (r1, r2)
    | _ => none

/-- Anchored attempt for `(.+?)(\d+)-(\d+)`: `pre` is the (reversed, nonempty)
prefix consumed so far; extend it one character at a time (never across a
newline, since `.` does not match one) until `(\d+)-(\d+)` matches. -/
def complexGo (pre rest : List Char) : Option (List Char × List Char × List Char) :=
  match dashDigitsMatch rest with
  | some (r1, r2) => some (pre.reverse, r1, r2)
  | none =>
      match rest with
      | [] => none
      | c :: rs => if c = '\n' then none else complexGo (c :: pre) rs

/-- Leftmost search for `(.+?)(\d+)-(\d+)` (pattern 1 of
`parse_serial_number_format` and the pattern of
`generate_overweight_serial_range`). -/
def complexSearch : List Char → Option (List Char × List Char × List Char)
  | [] => none
  | c :: rest =>
      match (if c = '\n' then none else complexGo [c] rest) with
      | some r => some r
      | none => complexSearch rest

/-- Anchored attempt for `(.+?)(\d+)`. -/
def simpleGo (pre rest : List Char) : Option (List Char × List Char) :=
  let r := digitRun rest
  if r.isEmpty then
    match rest with
    | [] => none
    | c :: rs => if c = '\n' then none else simpleGo (c :: pre) rs
  else some (pre.reverse, r)

/-- Leftmost search for `(.+?)(\d+)` (pattern 2 of
`parse_serial_number_format`). -/
def simpleLazySearch : List Char → Option (List Char × List Char)
  | [] => none
  | c :: rest =>
      match (if c = '\n' then none else simpleGo [c] rest) with
      | some r => some r
      | none => simpleLazySearch rest

/-- Leftmost search for `(\d+)`, returning everything before the first digit
run together with the run itself (`parse_complex_serial_format` and the nested
template's range generators take `serial_number[:digit_start]` as the prefix,
which is exactly the first component). -/
def digitSearch (l : List Char) : Option (List Char × List Char) :=
  let pre := l.takeWhile (fun c => !c.isDigit)
  let rest := l.drop pre.length
  if rest.isEmpty then none else some (pre, digitRun rest)

/-- Leftmost search for `([A-Z]+)(\d+)` (`parse_simple_serial_format`).  A
shorter uppercase run at the same start cannot rescue a failed attempt (the
character after a shortened run is uppercase, not a digit), so the greedy
semantics is: at the leftmost position, the maximal uppercase run immediately
followed by a digit run. -/
def upperSearch : List Char → Option (List Char × List Char)
  | [] => none
  | c :: rest =>
      if c.isUpper then
        let ur := (c :: rest).takeWhile Char.isUpper
        let after := (c :: rest).drop ur.length
        let dr := digitRun after
        if dr.isEmpty then upperSearch rest else some (ur, dr)
      else upperSearch rest

/-- Zero-padded decimal rendering, Python's `f"{n:0wd}"` for nonnegative `n`:
pad with leading zeros to width `w`, printing wider numbers in full. -/
def natPad (w n : ℕ) : String :=
  let s := toString n
  if s.length < w then String.mk (List.replicate (w - s.length) '0') ++ s else s

namespace BaseDataProcessor

/-- Result of `parse_simple_serial_format` (`base_data_processor.py`, lines
62-84).  The field before the digits is called `pfx` (for Python's `prefix`
key). -/
structure SimpleSerialFormat where
  pfx : String
  start_number : ℕ
  digits : ℕ
deriving DecidableEq, Repr

/-- Embedding of `BaseDataProcessor.parse_simple_serial_format`
(`base_data_processor.py`, lines 62-84): empty input or no `([A-Z]+)(\d+)`
match yields the default `DSK / 1 / 5`. -/
def parse_simple_serial_format (serial_number : String) : SimpleSerialFormat :=
  if serial_number = "" then { pfx := "DSK", start_number := 1, digits := 5 }
  else
    match upperSearch serial_number.data with
    | some (u, d) =>
        { pfx := String.mk u, start_number := digitsToNat d, digits := d.length }
    | none => { pfx := "DSK", start_number := 1, digits := 5 }

/-- Result of `parse_complex_serial_format` (`base_data_processor.py`, lines
86-106). -/
structure ComplexSerialFormat where
  pfx : String
  main_number : ℕ
  digit_start : ℕ
deriving DecidableEq, Repr

/-- Embedding of `BaseDataProcessor.parse_complex_serial_format`
(`base_data_processor.py`, lines 86-106): first digit run is the main number,
everything before it the prefix; no digit yields the default `DSK / 1001 / 0`. -/
def parse_complex_serial_format (serial_number : String) : ComplexSerialFormat :=
  match digitSearch serial_number.data with
  | some (p, d) =>
      { pfx := String.mk p, main_number := digitsToNat d, digit_start := p.length }
  | none => { pfx := "DSK", main_number := 1001, digit_start := 0 }

/-- Result of `parse_serial_number_format` (`base_data_processor.py`, lines
108-165). -/
structure SerialNumberFormat where
  pfx : String
  main_number : ℕ
  suffix : ℕ
  main_digits : ℕ
  suffix_digits : ℕ
  has_suffix : Bool
deriving DecidableEq, Repr

/-- Embedding of `BaseDataProcessor.parse_serial_number_format`
(`base_data_processor.py`, lines 108-165): try `(.+?)(\d+)-(\d+)`, then
`(.+?)(\d+)`, else the default `DSK / 1001 / 1`.  The recorded widths are the
hard-coded 5 and 2 of the source, not the widths found in the input. -/
def parse_serial_number_format (serial_number : String) : SerialNumberFormat :=
  match complexSearch serial_number.data with
  | some (p, m, suf) =>
      { pfx := String.mk p, main_number := digitsToNat m, suffix := digitsToNat suf
        main_digits := 5, suffix_digits := 2, has_suffix := true }
  | none =>
      match simpleLazySearch serial_number.data with
      | some (p, m) =>
          { pfx := String.mk p, main_number := digitsToNat m, suffix := 0
            main_digits := 5, suffix_digits := 0, has_suffix := false }
      | none =>
          { pfx := "DSK", main_number := 1001, suffix := 1
            main_digits := 5, suffix_digits := 2, has_suffix := true }

end BaseDataProcessor

/-! ## Serial range span and serial generators -/

/-- First 1-based item index covered by container `container_num`
(`regular_box/data_processor.py` line 107, `split_box/data_processor.py` line
101: `start_item = (container_num - 1) * items_per_container + 1`). -/
def rangeStartItem (container_num items_per_container : ℕ) : ℕ :=
  (container_num - 1) * items_per_container + 1

/-- Last 1-based item index covered by container `container_num` after the
boundary clamp (`regular_box/data_processor.py` lines 108-111,
`split_box/data_processor.py` lines 102-105): `end_item = start_item +
items_per_container - 1`, then `end_item = min(end_item, total_items)` when a
total is supplied. -/
def rangeEndItem (container_num items_per_container : ℕ)
    (total_items : Option ℕ) : ℕ :=
  let e := rangeStartItem container_num items_per_container
    + items_per_container - 1
  match total_items with
  | none => e
  | some t => min e t

namespace BaseDataProcessor

/-- Embedding of `BaseDataProcessor.generate_serial_number`
(`base_data_processor.py`, lines 167-197) at the default
`increment_type="suffix"`, the only form `generate_serial_range` calls: with a
suffix the suffix is incremented by `index`; without one control reaches
`_generate_custom_serial_number` (lines 220-232), whose default increments the
main number. -/
def generate_serial_number (base_number : String) (index : ℕ) : String :=
  let si := parse_serial_number_format base_number
  if si.has_suffix then
    si.pfx ++ natPad si.main_digits si.main_number ++ "-"
      ++ natPad si.suffix_digits (si.suffix + index)
  else
    si.pfx ++ natPad si.main_digits (si.main_number + index)

/-- Embedding of `BaseDataProcessor.generate_serial_range`
(`base_data_processor.py`, lines 199-218): `count <= 0` returns the base
string, `count == 1` the single start serial, otherwise the two-sided
`start-end` string. -/
def generate_serial_range (base_number : String) (start_index count : ℕ) :
    String :=
  if count ≤ 0 then base_number
  else
    let start_serial := generate_serial_number base_number start_index
    if count = 1 then start_serial
    else start_serial ++ "-"
      ++ generate_serial_number base_number (start_index + count - 1)

end BaseDataProcessor

namespace RegularDataProcessor

/-- Result of `RegularDataProcessor.calculate_multi_level_quantities`
(`regular_box/data_processor.py`, lines 44-76): the base three-level dict plus
the three remainder fields; echoed input parameters omitted as before. -/
structure RegularQuantities where
  total_pieces : ℕ
  total_boxes : ℕ
  total_small_boxes : ℕ
  total_large_boxes : ℕ
  remaining_pieces_in_last_box : ℕ
  remaining_boxes_in_last_small_box : ℕ
  remaining_small_boxes_in_last_large_box : ℕ
deriving DecidableEq, Repr

/-- Embedding of `RegularDataProcessor.calculate_multi_level_quantities`
(`regular_box/data_processor.py`, lines 44-76).  It calls the base class's
three-level computation (inlined here: the cascading `pyCeilDiv` chain) and
adds the raw mod remainders of lines 64-74. -/
def calculate_multi_level_quantities (total_pieces pieces_per_box
    boxes_per_small_box small_boxes_per_large_box : ℕ) : RegularQuantities :=
  let total_boxes := pyCeilDiv total_pieces pieces_per_box
  let total_small_boxes := pyCeilDiv total_boxes boxes_per_small_box
  let total_large_boxes := pyCeilDiv total_small_boxes small_boxes_per_large_box
  { total_pieces := total_pieces
    total_boxes := total_boxes
    total_small_boxes := total_small_boxes
    total_large_boxes := total_large_boxes
    remaining_pieces_in_last_box := total_pieces % pieces_per_box
    remaining_boxes_in_last_small_box := total_boxes % boxes_per_small_box
    remaining_small_boxes_in_last_large_box :=
      total_small_boxes % small_boxes_per_large_box }

/-- Embedding of `RegularDataProcessor.calculate_pieces_for_small_box`
(`regular_box/data_processor.py`, lines 191-201). -/
def calculate_pieces_for_small_box (small_box_num total_small_boxes
    pieces_per_small_box remaining_pieces : ℕ) : ℕ :=
  if small_box_num = total_small_boxes ∧ 0 < remaining_pieces then
    remaining_pieces
  else pieces_per_small_box

/-- Embedding of `RegularDataProcessor.generate_linear_serial_number`
(`regular_box/data_processor.py`, lines 78-91); the regular template overrides
`parse_serial_number_format` with the simple parser. -/
def generate_linear_serial_number (base_number : String) (box_num : ℕ) :
    String :=
  let si := BaseDataProcessor.parse_simple_serial_format base_number
  si.pfx ++ natPad si.digits (si.start_number + (box_num - 1))

/-- Embedding of `RegularDataProcessor.generate_linear_serial_range`
(`regular_box/data_processor.py`, lines 93-128).  The `container_type`
argument only affects logging and is dropped.  Note the result is always the
two-sided `first-last` string, with no collapse when the clamped span has a
single item. -/
def generate_linear_serial_range (base_number : String)
    (container_num items_per_container : ℕ) (total_items : Option ℕ) : String :=
  let si := BaseDataProcessor.parse_simple_serial_format base_number
  let start_item := rangeStartItem container_num items_per_container
  let end_item := rangeEndItem container_num items_per_container total_items
  let first_serial := si.pfx ++ natPad si.digits (si.start_number + (start_item - 1))
  let last_serial := si.pfx ++ natPad si.digits (si.start_number + (end_item - 1))
  first_serial ++ "-" ++ last_serial

end RegularDataProcessor

namespace SplitBoxDataProcessor

/-- Embedding of `SplitBoxDataProcessor.generate_grouped_serial_number`
(`split_box/data_processor.py`, lines 62-84); the split-box template parses the
base with `parse_complex_serial_format`.  `box_num` is 1-based (every caller
passes at least 1, recorded as a hypothesis where it matters).  Python's
`box_index // group_size` raises `ZeroDivisionError` at `group_size = 0`,
embedded as `Except.error`. -/
def generate_grouped_serial_number (base_number : String)
    (box_num group_size : ℕ) : Except String String :=
  if group_size = 0 then Except.error "ZeroDivisionError"
  else
    let si := BaseDataProcessor.parse_complex_serial_format base_number
    let box_index := box_num - 1
    let main_increments := box_index / group_size
    let suffix_in_group := box_index % group_size + 1
    Except.ok (si.pfx ++ natPad 5 (si.main_number + main_increments) ++ "-"
      ++ natPad 2 suffix_in_group)

/-- Embedding of `SplitBoxDataProcessor.generate_grouped_serial_range`
(`split_box/data_processor.py`, lines 86-125): the clamped item span of
`rangeStartItem`/`rangeEndItem`, with the grouped serial of the first and last
0-based item index joined as a two-sided range. -/
def generate_grouped_serial_range (base_number : String)
    (container_num items_per_container group_size : ℕ)
    (total_items : Option ℕ) : Except String String :=
  if group_size = 0 then Except.error "ZeroDivisionError"
  else
    let si := BaseDataProcessor.parse_complex_serial_format base_number
    let start_item := rangeStartItem container_num items_per_container
    let end_item := rangeEndItem container_num items_per_container total_items
    let first_item_index := start_item - 1
    let first_serial := si.pfx
      ++ natPad 5 (si.main_number + first_item_index / group_size) ++ "-"
      ++ natPad 2 (first_item_index % group_size + 1)
    let last_item_index := end_item - 1
    let last_serial := si.pfx
      ++ natPad 5 (si.main_number + last_item_index / group_size) ++ "-"
      ++ natPad 2 (last_item_index % group_size + 1)
    Except.ok (first_serial ++ "-" ++ last_serial)

end SplitBoxDataProcessor

/-- Embedding of the group-size reading of
`generator_backup.py._create_fenhe_box_label` (lines 763-770): the backup
generator reads the user's third parameter as the group size and substitutes
the default 2 whenever it is nonpositive, before any serial generation runs;
this is the only place in the repository that guards `group_size <= 0`. -/
def fenheGroupSize (g : ℤ) : ℤ := if g ≤ 0 then 2 else g

namespace NestedBoxDataProcessor

/-- Embedding of `NestedBoxDataProcessor.generate_box_serial_number`
(`nested_box/data_processor.py`, lines 59-81); the nested template uses the
base class's `parse_serial_number_format`, so the suffix base is the parsed
suffix.  Python's `//` raises `ZeroDivisionError` at
`boxes_per_ending_unit = 0`, embedded as `Except.error`. -/
def generate_box_serial_number (base_number : String)
    (box_num boxes_per_ending_unit : ℕ) : Except String String :=
  if boxes_per_ending_unit = 0 then Except.error "ZeroDivisionError"
  else
    let si := BaseDataProcessor.parse_serial_number_format base_number
    let box_index := box_num - 1
    let main_offset := box_index / boxes_per_ending_unit
    let suffix_in_range := box_index % boxes_per_ending_unit + si.suffix
    Except.ok (si.pfx ++ natPad 5 (si.main_number + main_offset) ++ "-"
      ++ natPad 2 suffix_in_range)

/-- Embedding of `BaseDataProcessor.calculate_overweight_distribution`
(`base_data_processor.py`, lines 296-320), which
`NestedBoxDataProcessor.calculate_overweight_box_distribution` forwards to:
even split plus front-loaded remainder.  `sets_per_container` is positive at
every call site (Python would raise on 0). -/
def calculate_overweight_distribution (items_per_set sets_per_container
    item_in_container : ℕ) : ℕ :=
  let base_items := items_per_set / sets_per_container
  let remainder := items_per_set % sets_per_container
  if item_in_container ≤ remainder then base_items + 1 else base_items

/-- Sum of the overweight allocations of the first `k` containers of a set
(the accumulation loop of `generate_overweight_serial_range`,
`nested_box/data_processor.py` lines 240-244: `for i in range(1, box_in_set)`). -/
def owPrefixSum (items_per_set sets_per_container k : ℕ) : ℕ :=
  ((List.range k).map (fun i =>
    calculate_overweight_distribution items_per_set sets_per_container (i + 1))).sum

/-- Embedding of `NestedBoxDataProcessor.generate_overweight_serial_range`
(`nested_box/data_processor.py`, lines 212-277).  The function takes no total
box count: its indices are relative to the set only. -/
def generate_overweight_serial_range (base_number : String)
    (set_num box_in_set boxes_per_set boxes_per_large_box : ℕ) : String :=
  let boxes_in_current_box :=
    calculate_overweight_distribution boxes_per_set boxes_per_large_box box_in_set
  let start_box_in_set :=
    owPrefixSum boxes_per_set boxes_per_large_box (box_in_set - 1) + 1
  let end_box_in_set := start_box_in_set + boxes_in_current_box - 1
  match complexSearch base_number.data with
  | some (p, m, suf) =>
      let current_main := digitsToNat m + (set_num - 1)
      let start_suffix_in_set := digitsToNat suf + (start_box_in_set - 1)
      let end_suffix_in_set := digitsToNat suf + (end_box_in_set - 1)
      let start_serial := String.mk p ++ natPad 5 current_main ++ "-"
        ++ natPad 2 start_suffix_in_set
      let end_serial := String.mk p ++ natPad 5 current_main ++ "-"
        ++ natPad 2 end_suffix_in_set
      start_serial ++ "-" ++ end_serial
  | none => "DSK" ++ natPad 5 set_num ++ "-" ++ natPad 2 box_in_set

/-- The 1-based global box index of the last box whose serial the overweight
range for (`set_num`, `box_in_set`) covers: set `s` spans boxes
`(s-1)*boxes_per_set + 1 .. s*boxes_per_set` in
`_create_overweight_large_box_label` (`nested_box/template.py`), and within
the set the range ends at the prefix sum through `box_in_set`. -/
def overweightEndBoxGlobal (set_num box_in_set boxes_per_set
    boxes_per_large_box : ℕ) : ℕ :=
  (set_num - 1) * boxes_per_set
    + owPrefixSum boxes_per_set boxes_per_large_box (box_in_set - 1)
    + calculate_overweight_distribution boxes_per_set boxes_per_large_box box_in_set

end NestedBoxDataProcessor

/-! ## Template-level per-container actual counts -/

/-- Actual number of boxes in container `container_num` of box capacity
`capacity`, as computed by the label loops: `start_box = (n-1)*capacity + 1`,
`end_box = min(start_box + capacity - 1, total_boxes)`,
`actual = end_box - start_box + 1` (`nested_box/template.py` lines 343-348
with `capacity = boxes_per_small_box` and lines 437-443 with
`capacity = boxes_per_small_box * small_boxes_per_large_box`;
`regular_box/template.py` computes the same expressions). -/
def actual_boxes_in_container (container_num capacity total_boxes : ℕ) : ℕ :=
  let start_box := (container_num - 1) * capacity + 1
  let end_box := min (start_box + capacity - 1) total_boxes
  end_box - start_box + 1

/-- Actual piece count printed on the label of container `container_num`:
`actual_boxes * pieces_per_box` (`nested_box/template.py` lines 348 and 443,
`regular_box/template.py` lines 376 and 485).  The clamp is at box
granularity: a final partially-filled box still counts `pieces_per_box`
pieces here. -/
def actual_pieces_in_container (container_num capacity total_boxes
    pieces_per_box : ℕ) : ℕ :=
  actual_boxes_in_container container_num capacity total_boxes * pieces_per_box

/-! ## Conservation lemmas -/

theorem actual_boxes_sum_aux (c T : ℕ) (hc : 0 < c) :
    ∀ N, (∀ n, n < N → n * c < T) →
    ((List.range N).map (fun n => actual_boxes_in_container (n + 1) c T)).sum
      = min (N * c) T := by
  intro N
  induction N with
  | zero => intro _; simp
  | succ N ih =>
      intro h
      rw [List.range_succ, List.map_append, List.sum_append,
        ih (fun n hn => h n (by omega))]
      have hNc : N * c < T := h N (by omega)
      have hmul : (N + 1) * c = N * c + c := by ring
      simp only [List.map_cons, List.map_nil, List.sum_cons, List.sum_nil,
        actual_boxes_in_container, Nat.add_sub_cancel]
      omega

/-- The clamped per-container box counts at one packaging level sum to the
exact box total: no box is counted twice and none is lost. -/
theorem actual_boxes_sum (c T : ℕ) (hc : 0 < c) (hT : 0 < T) :
    ((List.range (pyCeilDiv T c)).map
      (fun n => actual_boxes_in_container (n + 1) c T)).sum = T := by
  rw [actual_boxes_sum_aux c T hc _ ?_]
  · have h1 : T ≤ pyCeilDiv T c * c := by
      rw [mul_comm]; exact le_mul_pyCeilDiv T c hc
    omega
  · intro n hn
    have h2 := mul_pred_pyCeilDiv_lt T c hT hc
    rw [mul_comm] at h2
    have h3 : n * c ≤ (pyCeilDiv T c - 1) * c :=
      Nat.mul_le_mul_right c (by omega)
    omega

theorem owPrefixSum_closed (items c : ℕ) :
    ∀ k, NestedBoxDataProcessor.owPrefixSum items c k
      = k * (items / c) + min k (items % c) := by
  intro k
  induction k with
  | zero => simp [NestedBoxDataProcessor.owPrefixSum]
  | succ k ih =>
      unfold NestedBoxDataProcessor.owPrefixSum at ih ⊢
      rw [List.range_succ, List.map_append, List.sum_append, ih]
      have hmul : (k + 1) * (items / c) = k * (items / c) + items / c := by ring
      simp only [List.map_cons, List.map_nil, List.sum_cons, List.sum_nil,
        NestedBoxDataProcessor.calculate_overweight_distribution]
      split <;> omega

/-- C5: for `items_per_set >= 0` and `containers_per_set > 0` the overweight
allocations for positions `1..containers_per_set` sum to `items_per_set`, any
two allocations differ by at most 1 (every allocation is `base` or
`base + 1`), exactly the first `items_per_set % containers_per_set` positions
receive `base + 1` where `base = items_per_set / containers_per_set`, and all
later positions receive `base`; concretely `items_per_set = 7`,
`containers_per_set = 3` yields `[3, 2, 2]`. -/
theorem C5_overweight_distribution (items_per_set containers_per_set : ℕ)
    (hc : 0 < containers_per_set) :
    ((List.range containers_per_set).map (fun k =>
        NestedBoxDataProcessor.calculate_overweight_distribution items_per_set
          containers_per_set (k + 1))).sum = items_per_set
    ∧ (∀ x ∈ (List.range containers_per_set).map (fun k =>
        NestedBoxDataProcessor.calculate_overweight_distribution items_per_set
          containers_per_set (k + 1)),
        x = items_per_set / containers_per_set
        ∨ x = items_per_set / containers_per_set + 1)
    ∧ (∀ x ∈ (List.range containers_per_set).map (fun k =>
        NestedBoxDataProcessor.calculate_overweight_distribution items_per_set
          containers_per_set (k + 1)),
       ∀ y ∈ (List.range containers_per_set).map (fun k =>
        NestedBoxDataProcessor.calculate_overweight_distribution items_per_set
          containers_per_set (k + 1)), x ≤ y + 1)
    ∧ (∀ pos, 1 ≤ pos → pos ≤ containers_per_set →
        NestedBoxDataProcessor.calculate_overweight_distribution items_per_set
          containers_per_set pos
        = if pos ≤ items_per_set % containers_per_set then
            items_per_set / containers_per_set + 1
          else items_per_set / containers_per_set)
    ∧ ((List.range 3).map (fun k =>
        NestedBoxDataProcessor.calculate_overweight_distribution 7 3 (k + 1)))
      = [3, 2, 2] := by
  have hmem : ∀ x ∈ (List.range containers_per_set).map (fun k =>
      NestedBoxDataProcessor.calculate_overweight_distribution items_per_set
        containers_per_set (k + 1)),
      x = items_per_set / containers_per_set
      ∨ x = items_per_set / containers_per_set + 1 := by
    intro x hx
    simp only [List.mem_map, List.mem_range] at hx
    obtain ⟨k, _, hk⟩ := hx
    simp only [NestedBoxDataProcessor.calculate_overweight_distribution] at hk
    split at hk <;> omega
  refine ⟨?_, hmem, ?_, ?_, by decide⟩
  · have h1 : ((List.range containers_per_set).map (fun k =>
        NestedBoxDataProcessor.calculate_overweight_distribution items_per_set
          containers_per_set (k + 1))).sum
        = NestedBoxDataProcessor.owPrefixSum items_per_set containers_per_set
            containers_per_set := rfl
    rw [h1, owPrefixSum_closed]
    have h2 := Nat.div_add_mod items_per_set containers_per_set
    have h3 := Nat.mod_lt items_per_set hc
    have h4 : containers_per_set * (items_per_set / containers_per_set)
        = items_per_set / containers_per_set * containers_per_set := by ring
    omega
  · intro x hx y hy
    rcases hmem x hx with h | h <;> rcases hmem y hy with h' | h' <;> omega
  · intro pos h1 h2
    simp only [NestedBoxDataProcessor.calculate_overweight_distribution]

/-- Witness for C5 at the spec's scenario D input (7 items over 3
containers). -/
theorem C5_overweight_distribution_witness :
    (0 < 3)
    ∧ ((List.range 3).map (fun k =>
        NestedBoxDataProcessor.calculate_overweight_distribution 7 3 (k + 1))).sum
      = 7 :=
  ⟨by decide, (C5_overweight_distribution 7 3 (by decide)).1⟩

theorem owPrefixSum_succ (items c k : ℕ) :
    NestedBoxDataProcessor.owPrefixSum items c (k + 1)
    = NestedBoxDataProcessor.owPrefixSum items c k
      + NestedBoxDataProcessor.calculate_overweight_distribution items c (k + 1) := by
  unfold NestedBoxDataProcessor.owPrefixSum
  rw [List.range_succ, List.map_append, List.sum_append]
  simp

theorem overweight_alloc_pos (items c k : ℕ) (hc : 0 < c) (hle : c ≤ items) :
    0 < NestedBoxDataProcessor.calculate_overweight_distribution items c k := by
  simp only [NestedBoxDataProcessor.calculate_overweight_distribution]
  have hbase : 1 ≤ items / c := (Nat.one_le_div_iff hc).mpr hle
  split <;> omega

/-- C6: in overweight serial assignment, the serial range of container
`box_in_set` of set `set_num` spans the suffix interval
`[running, running + alloc - 1]` where `running` is the parsed base suffix
plus the allocations of the earlier containers of the same set; the main
number is the parsed main number plus `set_num - 1`; the running suffix is
the base suffix at the first container of a set and advances by the current
allocation for the next container.  Hypotheses: the base string parses under
`(.+?)(\d+)-(\d+)`, indices are 1-based, and the set splits into at most
`boxes_per_set` containers (so every allocation is at least 1, matching the
overweight regime). -/
theorem C6_overweight_running_suffix (base_number : String)
    (p m suf : List Char)
    (hparse : complexSearch base_number.data = some (p, m, suf))
    (set_num box_in_set boxes_per_set boxes_per_large_box : ℕ)
    (hbox : 1 ≤ box_in_set)
    (hbplb : 0 < boxes_per_large_box) (hle : boxes_per_large_box ≤ boxes_per_set) :
    NestedBoxDataProcessor.generate_overweight_serial_range base_number set_num
        box_in_set boxes_per_set boxes_per_large_box
      = String.mk p ++ natPad 5 (digitsToNat m + (set_num - 1)) ++ "-"
          ++ natPad 2 (digitsToNat suf
              + NestedBoxDataProcessor.owPrefixSum boxes_per_set
                  boxes_per_large_box (box_in_set - 1))
          ++ "-"
          ++ (String.mk p ++ natPad 5 (digitsToNat m + (set_num - 1)) ++ "-"
          ++ natPad 2 (digitsToNat suf
              + NestedBoxDataProcessor.owPrefixSum boxes_per_set
                  boxes_per_large_box (box_in_set - 1)
              + NestedBoxDataProcessor.calculate_overweight_distribution
                  boxes_per_set boxes_per_large_box box_in_set - 1))
    ∧ digitsToNat suf + NestedBoxDataProcessor.owPrefixSum boxes_per_set
        boxes_per_large_box (1 - 1) = digitsToNat suf
    ∧ (∀ k, 1 ≤ k →
        digitsToNat suf + NestedBoxDataProcessor.owPrefixSum boxes_per_set
          boxes_per_large_box k
        = (digitsToNat suf + NestedBoxDataProcessor.owPrefixSum boxes_per_set
            boxes_per_large_box (k - 1))
          + NestedBoxDataProcessor.calculate_overweight_distribution
              boxes_per_set boxes_per_large_box k) := by
  have halloc := overweight_alloc_pos boxes_per_set boxes_per_large_box
    box_in_set hbplb hle
  refine ⟨?_, by simp [NestedBoxDataProcessor.owPrefixSum], ?_⟩
  · simp only [NestedBoxDataProcessor.generate_overweight_serial_range, hparse]
    have e1 : NestedBoxDataProcessor.owPrefixSum boxes_per_set
        boxes_per_large_box (box_in_set - 1) + 1 - 1
        = NestedBoxDataProcessor.owPrefixSum boxes_per_set boxes_per_large_box
            (box_in_set - 1) := by omega
    have e2 : digitsToNat suf
        + (NestedBoxDataProcessor.owPrefixSum boxes_per_set boxes_per_large_box
            (box_in_set - 1) + 1
          + NestedBoxDataProcessor.calculate_overweight_distribution
              boxes_per_set boxes_per_large_box box_in_set - 1 - 1)
        = digitsToNat suf
          + NestedBoxDataProcessor.owPrefixSum boxes_per_set boxes_per_large_box
              (box_in_set - 1)
          + NestedBoxDataProcessor.calculate_overweight_distribution
              boxes_per_set boxes_per_large_box box_in_set - 1 := by omega
    rw [e1, e2]
  · intro k hk
    obtain ⟨k', rfl⟩ : ∃ k', k = k' + 1 := ⟨k - 1, by omega⟩
    rw [owPrefixSum_succ]
    simp only [Nat.add_sub_cancel]
    omega

/-- Witness for C6: base `JAW01001-01`, set 2, container 2 of 3, 7 boxes per
set split over 3 containers. -/
theorem C6_overweight_running_suffix_witness :
    complexSearch "JAW01001-01".data
      = some ("JAW".data, "01001".data, "01".data)
    ∧ NestedBoxDataProcessor.generate_overweight_serial_range "JAW01001-01" 2 2 7 3
      = String.mk "JAW".data ++ natPad 5 (digitsToNat "01001".data + (2 - 1)) ++ "-"
          ++ natPad 2 (digitsToNat "01".data
              + NestedBoxDataProcessor.owPrefixSum 7 3 (2 - 1))
          ++ "-"
          ++ (String.mk "JAW".data ++ natPad 5 (digitsToNat "01001".data + (2 - 1)) ++ "-"
          ++ natPad 2 (digitsToNat "01".data
              + NestedBoxDataProcessor.owPrefixSum 7 3 (2 - 1)
              + NestedBoxDataProcessor.calculate_overweight_distribution 7 3 2 - 1)) :=
  ⟨by decide,
    (C6_overweight_running_suffix "JAW01001-01" "JAW".data "01001".data "01".data
      (by decide) 2 2 7 3 (by decide) (by decide) (by decide)).1⟩

/-- C4: for every parsed serial format and `group_size >= 1`, the grouped
serial for 0-based `box_index` has main number
`main_number + box_index / group_size` and suffix
`box_index % group_size + suffix_base` — suffix base 1 in the split-box
generator, the parsed suffix in the nested generator; for
`box_index < group_size` the main offset is 0, suffix values stay within
`1..group_size`, and after `group_size` more boxes the main number is exactly
one larger with the same suffix; concretely `DSK00001-01` with group size 3
gives `DSK00001-01` at box index 0 and `DSK00002-01` at box index 3. -/
theorem C4_grouped_serial_number (base_number : String)
    (box_index group_size : ℕ) (hgs : 1 ≤ group_size) :
    SplitBoxDataProcessor.generate_grouped_serial_number base_number
        (box_index + 1) group_size
      = Except.ok
          ((BaseDataProcessor.parse_complex_serial_format base_number).pfx
            ++ natPad 5
              ((BaseDataProcessor.parse_complex_serial_format base_number).main_number
                + box_index / group_size)
            ++ "-" ++ natPad 2 (box_index % group_size + 1))
    ∧ NestedBoxDataProcessor.generate_box_serial_number base_number
        (box_index + 1) group_size
      = Except.ok
          ((BaseDataProcessor.parse_serial_number_format base_number).pfx
            ++ natPad 5
              ((BaseDataProcessor.parse_serial_number_format base_number).main_number
                + box_index / group_size)
            ++ "-"
            ++ natPad 2 (box_index % group_size
                + (BaseDataProcessor.parse_serial_number_format base_number).suffix))
    ∧ (box_index < group_size → box_index / group_size = 0)
    ∧ (box_index + group_size) / group_size = box_index / group_size + 1
    ∧ (box_index + group_size) % group_size = box_index % group_size
    ∧ 1 ≤ box_index % group_size + 1
    ∧ box_index % group_size + 1 ≤ group_size
    ∧ SplitBoxDataProcessor.generate_grouped_serial_number "DSK00001-01" 1 3
      = Except.ok "DSK00001-01"
    ∧ SplitBoxDataProcessor.generate_grouped_serial_number "DSK00001-01" 4 3
      = Except.ok "DSK00002-01"
    ∧ NestedBoxDataProcessor.generate_box_serial_number "DSK00001-01" 1 3
      = Except.ok "DSK00001-01"
    ∧ NestedBoxDataProcessor.generate_box_serial_number "DSK00001-01" 4 3
      = Except.ok "DSK00002-01" := by
  refine ⟨?_, ?_, fun h => Nat.div_eq_of_lt h, Nat.add_div_right _ hgs,
    Nat.add_mod_right _ _, by omega,
    by have := Nat.mod_lt box_index (show 0 < group_size by omega); omega,
    rfl, rfl, rfl, rfl⟩
  · simp only [SplitBoxDataProcessor.generate_grouped_serial_number,
      Nat.add_sub_cancel]
    rw [if_neg (by omega)]
  · simp only [NestedBoxDataProcessor.generate_box_serial_number,
      Nat.add_sub_cancel]
    rw [if_neg (by omega)]

/-- Witness for C4: the spec's scenario C instantiation (box index 3, group
size 3). -/
theorem C4_grouped_serial_number_witness :
    (1 ≤ 3 : Prop)
    ∧ SplitBoxDataProcessor.generate_grouped_serial_number "DSK00001-01" (3 + 1) 3
      = Except.ok
          ((BaseDataProcessor.parse_complex_serial_format "DSK00001-01").pfx
            ++ natPad 5
              ((BaseDataProcessor.parse_complex_serial_format "DSK00001-01").main_number
                + 3 / 3)
            ++ "-" ++ natPad 2 (3 % 3 + 1)) :=
  ⟨by decide, (C4_grouped_serial_number "DSK00001-01" 3 3 (by decide)).1⟩

/-! ## Parsing with no digit run -/

theorem digitRun_eq_nil (l : List Char) (h : ∀ c ∈ l, c.isDigit = false) :
    digitRun l = [] := by
  cases l with
  | nil => rfl
  | cons c rs => simp [digitRun, List.takeWhile_cons, h c (by simp)]

theorem dashDigitsMatch_none (l : List Char) (h : ∀ c ∈ l, c.isDigit = false) :
    dashDigitsMatch l = none := by
  simp [dashDigitsMatch, digitRun_eq_nil l h]

theorem complexGo_none (l : List Char) :
    ∀ pre : List Char, (∀ c ∈ l, c.isDigit = false) → complexGo pre l = none := by
  induction l with
  | nil => intro pre _; rfl
  | cons c rs ih =>
      intro pre h
      rw [complexGo, dashDigitsMatch_none _ h]
      have hrs : ∀ x ∈ rs, x.isDigit = false := fun x hx => h x (by simp [hx])
      by_cases hc : c = '\n' <;> simp [hc, ih _ hrs]

theorem complexSearch_none (l : List Char)
    (h : ∀ c ∈ l, c.isDigit = false) : complexSearch l = none := by
  induction l with
  | nil => rfl
  | cons c rs ih =>
      rw [complexSearch]
      have hrs : ∀ x ∈ rs, x.isDigit = false := fun x hx => h x (by simp [hx])
      by_cases hc : c = '\n' <;> simp [hc, complexGo_none _ _ hrs, ih hrs]

theorem simpleGo_none (l : List Char) :
    ∀ pre : List Char, (∀ c ∈ l, c.isDigit = false) → simpleGo pre l = none := by
  induction l with
  | nil => intro pre _; rfl
  | cons c rs ih =>
      intro pre h
      rw [simpleGo]
      have hrs : ∀ x ∈ rs, x.isDigit = false := fun x hx => h x (by simp [hx])
      simp only [digitRun_eq_nil _ h, List.isEmpty_nil, if_true]
      by_cases hc : c = '\n' <;> simp [hc, ih _ hrs]

theorem simpleLazySearch_none (l : List Char)
    (h : ∀ c ∈ l, c.isDigit = false) : simpleLazySearch l = none := by
  induction l with
  | nil => rfl
  | cons c rs ih =>
      rw [simpleLazySearch]
      have hrs : ∀ x ∈ rs, x.isDigit = false := fun x hx => h x (by simp [hx])
      by_cases hc : c = '\n' <;> simp [hc, simpleGo_none _ _ hrs, ih hrs]

theorem digitSearch_none (l : List Char)
    (h : ∀ c ∈ l, c.isDigit = false) : digitSearch l = none := by
  have htw : l.takeWhile (fun c => !c.isDigit) = l := by
    induction l with
    | nil => rfl
    | cons c rs ih =>
        simp [List.takeWhile_cons, h c (by simp),
          ih (fun x hx => h x (by simp [hx]))]
  simp [digitSearch, htw]

theorem upperSearch_none (l : List Char)
    (h : ∀ c ∈ l, c.isDigit = false) : upperSearch l = none := by
  induction l with
  | nil => rfl
  | cons c rs ih =>
      rw [upperSearch]
      have hrs : ∀ x ∈ rs, x.isDigit = false := fun x hx => h x (by simp [hx])
      by_cases hc : c.isUpper
      · have hdrop : ∀ n, digitRun (rs.drop n) = [] := fun n =>
          digitRun_eq_nil _ (fun x hx => hrs x (List.drop_subset _ _ hx))
        have hdrop2 : ∀ n, digitRun ((c :: rs).drop n) = [] := fun n =>
          digitRun_eq_nil _ (fun x hx => h x (List.drop_subset _ _ hx))
        simp [hc, hdrop, hdrop2, ih hrs]
      · simp [hc, ih hrs]

/-- C7: serial-format parsing is total — each parser is a plain function on
strings with no failing operation, so no exception can arise — and on a
string with no digit run `parse_serial_number_format` substitutes the default
prefix `DSK`, main number 1001, suffix 1.  The simple profile's
`parse_simple_serial_format` substitutes prefix `DSK` with *start number 1*
(width 5, no suffix field), and `parse_complex_serial_format` substitutes
`DSK`, main number 1001 with no suffix field: the `1001/1` default of the
claim belongs to `parse_serial_number_format` alone. -/
theorem C7_parse_no_digit_defaults (s : String)
    (h : ∀ c ∈ s.data, c.isDigit = false) :
    BaseDataProcessor.parse_serial_number_format s
      = { pfx := "DSK", main_number := 1001, suffix := 1
          main_digits := 5, suffix_digits := 2, has_suffix := true }
    ∧ BaseDataProcessor.parse_simple_serial_format s
      = { pfx := "DSK", start_number := 1, digits := 5 }
    ∧ BaseDataProcessor.parse_complex_serial_format s
      = { pfx := "DSK", main_number := 1001, digit_start := 0 } := by
  refine ⟨?_, ?_, ?_⟩
  · simp [BaseDataProcessor.parse_serial_number_format,
      complexSearch_none _ h, simpleLazySearch_none _ h]
  · by_cases hs : s = ""
    · simp [BaseDataProcessor.parse_simple_serial_format, hs]
    · simp [BaseDataProcessor.parse_simple_serial_format, hs,
        upperSearch_none _ h]
  · simp [BaseDataProcessor.parse_complex_serial_format, digitSearch_none _ h]

/-- Witness for C7's amended statement at the digit-free input `N/A`. -/
theorem C7_parse_no_digit_defaults_witness :
    (∀ c ∈ "N/A".data, c.isDigit = false)
    ∧ BaseDataProcessor.parse_serial_number_format "N/A"
      = { pfx := "DSK", main_number := 1001, suffix := 1
          main_digits := 5, suffix_digits := 2, has_suffix := true } :=
  ⟨by decide, (C7_parse_no_digit_defaults "N/A" (by decide)).1⟩

/-- Counterexample to C7 as stated: on a digit-free string the simple profile
substitutes start number 1 (with no suffix field), not the claimed main number
1001 and suffix 1. -/
theorem C7_simple_default_counterexample :
    (∀ c ∈ "N/A".data, c.isDigit = false)
    ∧ BaseDataProcessor.parse_simple_serial_format "N/A"
      = { pfx := "DSK", start_number := 1, digits := 5 }
    ∧ (BaseDataProcessor.parse_simple_serial_format "N/A").start_number ≠ 1001 := by
  refine ⟨by decide, by decide, by decide⟩

/-- C8 (amended): the default-2 substitution for a nonpositive group size is
performed by the backup generator's parameter reading (`generator_backup.py`
lines 763-770, embedded as `fenheGroupSize`), before any serial generation
runs, and a call through that guard never fails; the grouped serial generator
itself performs no substitution and raises `ZeroDivisionError` when called
directly with group size 0.  (The guard's effect is printed by the backup
generator's log statement; console output is outside the embedding.) -/
theorem C8_group_size_guard (g : ℤ) (hg : g ≤ 0) (base_number : String)
    (box_num : ℕ) :
    fenheGroupSize g = 2
    ∧ (SplitBoxDataProcessor.generate_grouped_serial_number base_number box_num
        (fenheGroupSize g).toNat).isOk = true
    ∧ SplitBoxDataProcessor.generate_grouped_serial_number base_number box_num 0
      = Except.error "ZeroDivisionError" := by
  have h2 : fenheGroupSize g = 2 := by simp [fenheGroupSize, hg]
  refine ⟨h2, ?_, rfl⟩
  rw [h2]
  simp [SplitBoxDataProcessor.generate_grouped_serial_number, Except.isOk,
    Except.toBool]

/-- Witness for C8's amended statement at group size -1. -/
theorem C8_group_size_guard_witness :
    ((-1 : ℤ) ≤ 0)
    ∧ fenheGroupSize (-1) = 2
    ∧ (SplitBoxDataProcessor.generate_grouped_serial_number "DSK00001-01" 1
        (fenheGroupSize (-1)).toNat).isOk = true :=
  ⟨by decide,
    (C8_group_size_guard (-1) (by decide) "DSK00001-01" 1).1,
    (C8_group_size_guard (-1) (by decide) "DSK00001-01" 1).2.1⟩

/-- Counterexample to C8 as stated: a direct grouped serial generation call
with group size 0 raises `ZeroDivisionError` instead of substituting the
default 2 and continuing. -/
theorem C8_zero_division_counterexample :
    SplitBoxDataProcessor.generate_grouped_serial_number "DSK00001-01" 1 0
      = Except.error "ZeroDivisionError"
    ∧ SplitBoxDataProcessor.generate_grouped_serial_number "DSK00001-01" 1 2
      = Except.ok "DSK00001-01"
    ∧ SplitBoxDataProcessor.generate_grouped_serial_number "DSK00001-01" 1 0
      ≠ SplitBoxDataProcessor.generate_grouped_serial_number "DSK00001-01" 1 2 := by
  refine ⟨rfl, rfl, ?_⟩
  intro h
  rw [show SplitBoxDataProcessor.generate_grouped_serial_number "DSK00001-01" 1 0
      = Except.error "ZeroDivisionError" from rfl,
    show SplitBoxDataProcessor.generate_grouped_serial_number "DSK00001-01" 1 2
      = Except.ok "DSK00001-01" from rfl] at h
  exact Except.noConfusion h

theorem mod_eq_last_count (a b : ℕ) (hb : 0 < b) (hnd : ¬ b ∣ a) :
    a % b = a - (pyCeilDiv a b - 1) * b := by
  have ha : 0 < a := by
    rcases Nat.eq_zero_or_pos a with h | h
    · exact absurd (h ▸ dvd_zero b) hnd
    · exact h
  have h1 : a ≤ b * pyCeilDiv a b := le_mul_pyCeilDiv a b hb
  have h2 : b * (pyCeilDiv a b - 1) < a := mul_pred_pyCeilDiv_lt a b ha hb
  have h3 : a ≠ b * pyCeilDiv a b := fun h => hnd ⟨_, h⟩
  have hN : 0 < pyCeilDiv a b := pyCeilDiv_pos a b ha hb
  have hdiv : a / b = pyCeilDiv a b - 1 := by
    apply Nat.div_eq_of_lt_le
    · rw [mul_comm]; omega
    · have he : pyCeilDiv a b - 1 + 1 = pyCeilDiv a b := by omega
      rw [he, mul_comm]; omega
  have h4 := Nat.div_add_mod a b
  rw [hdiv] at h4
  have h5 : b * (pyCeilDiv a b - 1) = (pyCeilDiv a b - 1) * b := mul_comm _ _
  omega

/-- C9 (amended): the remainder fields of the regular processor's quantity
result are the raw `lower_total % ratio`: the true count of the last container
at that level when the ratio does not divide the lower total, but 0 — not the
full capacity — when it divides evenly (the capacity substitution happens in
the template layer, not in this method). -/
theorem C9_remainder_fields (total_pieces pieces_per_box boxes_per_small_box
    small_boxes_per_large_box : ℕ) (hppb : 0 < pieces_per_box)
    (hbpsb : 0 < boxes_per_small_box) (hspl : 0 < small_boxes_per_large_box) :
    (RegularDataProcessor.calculate_multi_level_quantities total_pieces
        pieces_per_box boxes_per_small_box
        small_boxes_per_large_box).remaining_pieces_in_last_box
      = total_pieces % pieces_per_box
    ∧ (¬ pieces_per_box ∣ total_pieces →
        (RegularDataProcessor.calculate_multi_level_quantities total_pieces
          pieces_per_box boxes_per_small_box
          small_boxes_per_large_box).remaining_pieces_in_last_box
        = total_pieces
          - ((RegularDataProcessor.calculate_multi_level_quantities total_pieces
              pieces_per_box boxes_per_small_box
              small_boxes_per_large_box).total_boxes - 1) * pieces_per_box)
    ∧ (pieces_per_box ∣ total_pieces →
        (RegularDataProcessor.calculate_multi_level_quantities total_pieces
          pieces_per_box boxes_per_small_box
          small_boxes_per_large_box).remaining_pieces_in_last_box = 0)
    ∧ (RegularDataProcessor.calculate_multi_level_quantities total_pieces
        pieces_per_box boxes_per_small_box
        small_boxes_per_large_box).remaining_boxes_in_last_small_box
      = pyCeilDiv total_pieces pieces_per_box % boxes_per_small_box
    ∧ (¬ boxes_per_small_box ∣ pyCeilDiv total_pieces pieces_per_box →
        (RegularDataProcessor.calculate_multi_level_quantities total_pieces
          pieces_per_box boxes_per_small_box
          small_boxes_per_large_box).remaining_boxes_in_last_small_box
        = pyCeilDiv total_pieces pieces_per_box
          - ((RegularDataProcessor.calculate_multi_level_quantities total_pieces
              pieces_per_box boxes_per_small_box
              small_boxes_per_large_box).total_small_boxes - 1)
            * boxes_per_small_box)
    ∧ (boxes_per_small_box ∣ pyCeilDiv total_pieces pieces_per_box →
        (RegularDataProcessor.calculate_multi_level_quantities total_pieces
          pieces_per_box boxes_per_small_box
          small_boxes_per_large_box).remaining_boxes_in_last_small_box = 0)
    ∧ (RegularDataProcessor.calculate_multi_level_quantities total_pieces
        pieces_per_box boxes_per_small_box
        small_boxes_per_large_box).remaining_small_boxes_in_last_large_box
      = pyCeilDiv (pyCeilDiv total_pieces pieces_per_box) boxes_per_small_box
          % small_boxes_per_large_box
    ∧ (¬ small_boxes_per_large_box
          ∣ pyCeilDiv (pyCeilDiv total_pieces pieces_per_box) boxes_per_small_box →
        (RegularDataProcessor.calculate_multi_level_quantities total_pieces
          pieces_per_box boxes_per_small_box
          small_boxes_per_large_box).remaining_small_boxes_in_last_large_box
        = pyCeilDiv (pyCeilDiv total_pieces pieces_per_box) boxes_per_small_box
          - ((RegularDataProcessor.calculate_multi_level_quantities total_pieces
              pieces_per_box boxes_per_small_box
              small_boxes_per_large_box).total_large_boxes - 1)
            * small_boxes_per_large_box)
    ∧ (small_boxes_per_large_box
          ∣ pyCeilDiv (pyCeilDiv total_pieces pieces_per_box) boxes_per_small_box →
        (RegularDataProcessor.calculate_multi_level_quantities total_pieces
          pieces_per_box boxes_per_small_box
          small_boxes_per_large_box).remaining_small_boxes_in_last_large_box
          = 0) := by
  have hz : ∀ a b : ℕ, b ∣ a → a % b = 0 := by
    intro a b h
    obtain ⟨k, rfl⟩ := h
    exact Nat.mul_mod_right b k
  refine ⟨rfl, fun h => mod_eq_last_count _ _ hppb h, fun h => hz _ _ h,
    rfl, fun h => mod_eq_last_count _ _ hbpsb h, fun h => hz _ _ h,
    rfl, fun h => mod_eq_last_count _ _ hspl h, fun h => hz _ _ h⟩

/-- Witness for C9's amended statement at 1057 pieces, 50 per box, 5 boxes per
small box, 10 small boxes per large box. -/
theorem C9_remainder_fields_witness :
    (0 < 50 ∧ 0 < 5 ∧ 0 < 10)
    ∧ (RegularDataProcessor.calculate_multi_level_quantities 1057 50 5
        10).remaining_pieces_in_last_box = 1057 % 50 :=
  ⟨by decide,
    (C9_remainder_fields 1057 50 5 10 (by decide) (by decide) (by decide)).1⟩

/-- Counterexample to C9 as stated: with 100 pieces at 50 per box the pieces
divide evenly, the true count in the last box is 50, but the remainder field
is 0, not the capacity. -/
theorem C9_even_division_counterexample :
    (RegularDataProcessor.calculate_multi_level_quantities 100 50 2
        1).remaining_pieces_in_last_box = 0
    ∧ 100 - ((RegularDataProcessor.calculate_multi_level_quantities 100 50 2
        1).total_boxes - 1) * 50 = 50
    ∧ (0 : ℕ) ≠ 50 := by
  refine ⟨by decide, by decide, by decide⟩

theorem pyCeilDiv_mul_of_dvd (a b : ℕ) (hb : 0 < b) (h : b ∣ a) :
    pyCeilDiv a b * b = a := by
  obtain ⟨k, rfl⟩ := h
  have h1 : pyCeilDiv (b * k) b ≤ k := (pyCeilDiv_le_iff _ _ _ hb).mpr le_rfl
  have h2 : b * k ≤ b * pyCeilDiv (b * k) b := le_mul_pyCeilDiv _ _ hb
  have h3 : k ≤ pyCeilDiv (b * k) b := Nat.le_of_mul_le_mul_left h2 hb
  have h4 : pyCeilDiv (b * k) b = k := Nat.le_antisymm h1 h3
  rw [h4, mul_comm]

/-- C3 (amended): the templates clamp at box granularity: the per-container
actual box counts sum to `total_boxes` exactly at the small-box level and at
the large-box level (no box counted twice, none lost), and the per-container
piece counts (`actual_boxes * pieces_per_box`) therefore sum to
`total_boxes * pieces_per_box` at both levels — equal to `total_pieces`
exactly when `pieces_per_box` divides `total_pieces`, and strictly larger
otherwise (the last, partially-filled box is counted at full capacity). -/
theorem C3_clamped_sums (total_pieces pieces_per_box boxes_per_small_box
    small_boxes_per_large_box : ℕ) (htp : 0 < total_pieces)
    (hppb : 0 < pieces_per_box) (hbpsb : 0 < boxes_per_small_box)
    (hspl : 0 < small_boxes_per_large_box) :
    ((List.range (pyCeilDiv (pyCeilDiv total_pieces pieces_per_box)
        boxes_per_small_box)).map (fun n =>
      actual_boxes_in_container (n + 1) boxes_per_small_box
        (pyCeilDiv total_pieces pieces_per_box))).sum
      = pyCeilDiv total_pieces pieces_per_box
    ∧ ((List.range (pyCeilDiv (pyCeilDiv total_pieces pieces_per_box)
        boxes_per_small_box)).map (fun n =>
      actual_pieces_in_container (n + 1) boxes_per_small_box
        (pyCeilDiv total_pieces pieces_per_box) pieces_per_box)).sum
      = pyCeilDiv total_pieces pieces_per_box * pieces_per_box
    ∧ ((List.range (pyCeilDiv (pyCeilDiv (pyCeilDiv total_pieces pieces_per_box)
        boxes_per_small_box) small_boxes_per_large_box)).map (fun n =>
      actual_boxes_in_container (n + 1)
        (boxes_per_small_box * small_boxes_per_large_box)
        (pyCeilDiv total_pieces pieces_per_box))).sum
      = pyCeilDiv total_pieces pieces_per_box
    ∧ ((List.range (pyCeilDiv (pyCeilDiv (pyCeilDiv total_pieces pieces_per_box)
        boxes_per_small_box) small_boxes_per_large_box)).map (fun n =>
      actual_pieces_in_container (n + 1)
        (boxes_per_small_box * small_boxes_per_large_box)
        (pyCeilDiv total_pieces pieces_per_box) pieces_per_box)).sum
      = pyCeilDiv total_pieces pieces_per_box * pieces_per_box
    ∧ (pieces_per_box ∣ total_pieces →
        pyCeilDiv total_pieces pieces_per_box * pieces_per_box = total_pieces) := by
  have hT : 0 < pyCeilDiv total_pieces pieces_per_box :=
    pyCeilDiv_pos _ _ htp hppb
  have hsmall := actual_boxes_sum boxes_per_small_box
    (pyCeilDiv total_pieces pieces_per_box) hbpsb hT
  have hcap : 0 < boxes_per_small_box * small_boxes_per_large_box :=
    Nat.mul_pos hbpsb hspl
  have hnest := pyCeilDiv_pyCeilDiv (pyCeilDiv total_pieces pieces_per_box)
    boxes_per_small_box small_boxes_per_large_box hbpsb hspl
  have hlarge := actual_boxes_sum
    (boxes_per_small_box * small_boxes_per_large_box)
    (pyCeilDiv total_pieces pieces_per_box) hcap hT
  refine ⟨hsmall, ?_, ?_, ?_, fun h => pyCeilDiv_mul_of_dvd _ _ hppb h⟩
  · unfold actual_pieces_in_container
    rw [List.sum_map_mul_right, hsmall]
  · rw [hnest]; exact hlarge
  · unfold actual_pieces_in_container
    rw [List.sum_map_mul_right, hnest, hlarge]

/-- Witness for C3's amended statement at 1057 pieces, 50 per box, 5 boxes
per small box, 10 small boxes per large box. -/
theorem C3_clamped_sums_witness :
    (0 < 1057 ∧ 0 < 50 ∧ 0 < 5 ∧ 0 < 10)
    ∧ ((List.range (pyCeilDiv (pyCeilDiv 1057 50) 5)).map (fun n =>
        actual_boxes_in_container (n + 1) 5 (pyCeilDiv 1057 50))).sum
      = pyCeilDiv 1057 50 :=
  ⟨by decide,
    (C3_clamped_sums 1057 50 5 10 (by decide) (by decide) (by decide)
      (by decide)).1⟩

/-- Counterexample to C3 as stated: at 1057 pieces, 50 per box and 5 boxes
per small box, the per-small-box actual piece counts sum to 1100 =
total_boxes * pieces_per_box, not to total_pieces = 1057. -/
theorem C3_piece_sum_counterexample :
    ((List.range (pyCeilDiv (pyCeilDiv 1057 50) 5)).map (fun n =>
        actual_pieces_in_container (n + 1) 5 (pyCeilDiv 1057 50) 50)).sum = 1100
    ∧ (1100 : ℕ) ≠ 1057 := by
  refine ⟨by decide, by decide⟩

theorem owPrefixSum_le (items c k : ℕ) (hc : 0 < c) (hk : k ≤ c) :
    NestedBoxDataProcessor.owPrefixSum items c k ≤ items := by
  rw [owPrefixSum_closed]
  have h1 : k * (items / c) ≤ c * (items / c) := Nat.mul_le_mul_right _ hk
  have h2 : min k (items % c) ≤ items % c := Nat.min_le_right _ _
  have h3 := Nat.div_add_mod items c
  omega

/-- C2 (amended): the linear and grouped range generators clamp: the clamped
span `rangeStartItem .. rangeEndItem` from which both build their first and
last serial never ends past the supplied total, and starts within it for every
container index up to the level's container count.  The overweight range
generator takes no total: its indices are bounded only by the set's nominal
span (`overweightEndBoxGlobal <= set_num * boxes_per_set`), so when the last
set is only partially filled it can reference box indices beyond the true
total (see the counterexample). -/
theorem C2_boundary_clamp (container_num items_per_container total_items
    set_num box_in_set boxes_per_set boxes_per_large_box : ℕ)
    (hipc : 0 < items_per_container) (hn : 1 ≤ container_num)
    (hT : 0 < total_items)
    (hbplb : 0 < boxes_per_large_box) (hle : boxes_per_large_box ≤ boxes_per_set)
    (hk1 : 1 ≤ box_in_set) (hk2 : box_in_set ≤ boxes_per_large_box)
    (hset : 1 ≤ set_num) :
    rangeEndItem container_num items_per_container (some total_items)
      ≤ total_items
    ∧ (container_num ≤ pyCeilDiv total_items items_per_container →
        rangeStartItem container_num items_per_container ≤ total_items)
    ∧ NestedBoxDataProcessor.overweightEndBoxGlobal set_num box_in_set
        boxes_per_set boxes_per_large_box ≤ set_num * boxes_per_set := by
  refine ⟨Nat.min_le_right _ _, ?_, ?_⟩
  · intro hn2
    unfold rangeStartItem
    have h1 := mul_pred_pyCeilDiv_lt total_items items_per_container hT hipc
    rw [mul_comm] at h1
    have h2 : (container_num - 1) * items_per_container
        ≤ (pyCeilDiv total_items items_per_container - 1) * items_per_container :=
      Nat.mul_le_mul_right _ (by omega)
    omega
  · unfold NestedBoxDataProcessor.overweightEndBoxGlobal
    have hadv : NestedBoxDataProcessor.owPrefixSum boxes_per_set
        boxes_per_large_box (box_in_set - 1)
        + NestedBoxDataProcessor.calculate_overweight_distribution boxes_per_set
            boxes_per_large_box box_in_set
        = NestedBoxDataProcessor.owPrefixSum boxes_per_set boxes_per_large_box
            box_in_set := by
      obtain ⟨k', rfl⟩ : ∃ k', box_in_set = k' + 1 := ⟨box_in_set - 1, by omega⟩
      rw [owPrefixSum_succ]
      simp
    have hbound := owPrefixSum_le boxes_per_set boxes_per_large_box box_in_set
      hbplb hk2
    have hmul : (set_num - 1) * boxes_per_set + boxes_per_set
        = set_num * boxes_per_set := by
      have : set_num - 1 + 1 = set_num := by omega
      calc (set_num - 1) * boxes_per_set + boxes_per_set
          = (set_num - 1 + 1) * boxes_per_set := by ring
        _ = set_num * boxes_per_set := by rw [this]
    omega

/-- Witness for C2's amended statement: scenario-A-sized inputs for the
linear/grouped clamp and the overweight within-set bound. -/
theorem C2_boundary_clamp_witness :
    (0 < 5 ∧ 1 ≤ 5 ∧ 0 < 22 ∧ 0 < 2 ∧ 2 ≤ 5 ∧ 1 ≤ 2 ∧ 2 ≤ 2 ∧ 1 ≤ 2)
    ∧ rangeEndItem 5 5 (some 22) ≤ 22 :=
  ⟨by decide,
    (C2_boundary_clamp 5 5 22 2 2 5 2 (by decide) (by decide) (by decide)
      (by decide) (by decide) (by decide) (by decide) (by decide)).1⟩

/-- Counterexample to C2 as stated: with 7 true boxes (7 pieces at 1 per box),
5 boxes per set and sets split over 2 containers, the overweight generator is
called for set 2, container 2 (the template iterates over
`total_sets * boxes_per_large_box = 4` containers), and the serial it produces
covers in-set boxes 4-5 of set 2, i.e. global boxes 9-10 — beyond the true
total of 7 boxes. -/
theorem C2_overweight_overrun_counterexample :
    pyCeilDiv 7 1 = 7
    ∧ pyCeilDiv 7 5 = 2
    ∧ NestedBoxDataProcessor.overweightEndBoxGlobal 2 2 5 2 = 10
    ∧ (7 : ℕ) < 10
    ∧ NestedBoxDataProcessor.generate_overweight_serial_range "JAW01001-01"
        2 2 5 2
      = "JAW01002-04-JAW01002-05" := by
  refine ⟨by decide, by decide, by decide, by decide, by decide⟩

/-- C10 (amended): the base class's `generate_serial_range` renders the single
serial value when the span holds exactly one serial (`count == 1`) and the
two-sided `first-last` string when it holds more; the regular template's
`generate_linear_serial_range`, however, always renders the two-sided
`first-last` string, including when the clamped span collapses to a single
serial (see the counterexample). -/
theorem C10_range_collapse (base_number : String)
    (start_index count container_num items_per_container total_items : ℕ)
    (hc : 2 ≤ count) :
    BaseDataProcessor.generate_serial_range base_number start_index 1
      = BaseDataProcessor.generate_serial_number base_number start_index
    ∧ BaseDataProcessor.generate_serial_range base_number start_index count
      = BaseDataProcessor.generate_serial_number base_number start_index ++ "-"
        ++ BaseDataProcessor.generate_serial_number base_number
            (start_index + count - 1)
    ∧ RegularDataProcessor.generate_linear_serial_range base_number
        container_num items_per_container (some total_items)
      = (BaseDataProcessor.parse_simple_serial_format base_number).pfx
          ++ natPad (BaseDataProcessor.parse_simple_serial_format base_number).digits
            ((BaseDataProcessor.parse_simple_serial_format base_number).start_number
              + (rangeStartItem container_num items_per_container - 1))
          ++ "-"
          ++ ((BaseDataProcessor.parse_simple_serial_format base_number).pfx
          ++ natPad (BaseDataProcessor.parse_simple_serial_format base_number).digits
            ((BaseDataProcessor.parse_simple_serial_format base_number).start_number
              + (rangeEndItem container_num items_per_container
                  (some total_items) - 1))) := by
  refine ⟨by simp [BaseDataProcessor.generate_serial_range], ?_, rfl⟩
  unfold BaseDataProcessor.generate_serial_range
  rw [if_neg (by omega), if_neg (by omega)]

/-- Witness for C10's amended statement at base `DSK00001`, spans of length 2
and a collapsed linear span. -/
theorem C10_range_collapse_witness :
    (2 ≤ 2 : Prop)
    ∧ BaseDataProcessor.generate_serial_range "DSK00001" 0 1
      = BaseDataProcessor.generate_serial_number "DSK00001" 0 :=
  ⟨by decide, (C10_range_collapse "DSK00001" 0 2 1 1 1 (by decide)).1⟩

/-- Counterexample to C10 as stated: a linear range request whose clamped span
is the single box 1 (container 1, one item per container, total 1) returns the
two-sided string `DSK00001-DSK00001`, not the single serial `DSK00001`. -/
theorem C10_linear_no_collapse_counterexample :
    rangeStartItem 1 1 = rangeEndItem 1 1 (some 1)
    ∧ RegularDataProcessor.generate_linear_serial_range "DSK00001" 1 1 (some 1)
      = "DSK00001-DSK00001"
    ∧ RegularDataProcessor.generate_linear_serial_range "DSK00001" 1 1 (some 1)
      ≠ "DSK00001" := by
  refine ⟨by decide, by decide, by decide⟩
